import Mathlib

/-!
Shallow embedding of `model/net.py` (DenseNet variant, multi-label loss,
accuracy / precision / recall metrics), together with theorems checking the
natural-language specification against this embedding.

Modelling conventions:
* floating-point tensor values are idealised as real numbers (`ℝ`) for the
  loss function, and as rational numbers (`ℚ`) for the metric functions
  (whose arithmetic is exact comparisons, byte casts and divisions);
* a tensor is its size tuple (list of dimensions) plus the flat list of its
  elements, with the invariant that the element count is the product of the
  dimensions;
* Python exceptions (`ValueError` on shape mismatch, `ZeroDivisionError` on
  scalar division by zero) are modelled with `Except String`;
* Python `//` (floor division) on integers is `Int.fdiv`, `int(math.floor _)`
  on a rational is `Int.floor`, and `.byte()` casts are truncation toward
  zero followed by reduction modulo 256, as for a `uint8` tensor cast.
-/

namespace Net

/-- A tensor: its size (shape tuple) and its flattened data, with the
invariant that the data length is the product of the dimensions. -/
structure Tensor (α : Type) where
  shape : List Nat
  data : List α
  hlen : data.length = shape.prod

/-- `t.mean()`: the sum of all elements divided by the element count. -/
noncomputable def rmean (xs : List ℝ) : ℝ := xs.sum / xs.length

/-- Per-element value of the expression on line 168-169 of `net.py`:
`max_val = (-outputs).clamp(min=0)` and
`outputs - outputs*labels + max_val + ((-max_val).exp() + (-outputs - max_val).exp()).log()`. -/
noncomputable def lossElem (x z : ℝ) : ℝ :=
  let max_val := max (-x) 0
  x - x * z + max_val + Real.log (Real.exp (-max_val) + Real.exp (-x - max_val))

/-- The stable reference formulation named by the spec:
`max(x,0) - x*z + log(1 + exp(-|x|))`. -/
noncomputable def stableLoss (x z : ℝ) : ℝ :=
  max x 0 - x * z + Real.log (1 + Real.exp (-|x|))

/-- `loss_fn(outputs, labels)`: raises `ValueError` when the two sizes
differ, otherwise returns the mean over all elements of the per-element
loss expression. -/
noncomputable def loss_fn (outputs labels : Tensor ℝ) : Except String ℝ :=
  if labels.shape ≠ outputs.shape then
    Except.error ("Target size (" ++ toString labels.shape ++
      ") must be the same as input size (" ++ toString outputs.shape ++ ")")
  else
    Except.ok (rmean (List.zipWith lossElem outputs.data labels.data))

/-! ### Metrics (`accuracy`, `precision`, `recall`, lines 174-222)

The metric functions operate on the float tensors elementwise with exact
arithmetic; their values are modelled as rationals.  `outputs.data.gt(0.5)`
yields a `uint8` tensor of 0/1; `labels.data.byte()` casts the label floats
to `uint8` (truncation toward zero, reduced modulo 256); the `+`, `-`, `eq`
operations then act modulo 256, with the literal `-1` in `eq(-1)` itself
cast to 255.  `.sum()` yields a Python integer count, so `/` is true
division and raises `ZeroDivisionError` on a zero denominator. -/

/-- One element of `outputs.data.gt(0.5)` as a `uint8` value. -/
def predByte (x : ℚ) : ℕ := if x > 1/2 then 1 else 0

/-- Python truncation toward zero of a float, as used by an integer cast. -/
def pytrunc (q : ℚ) : ℤ := if q < 0 then ⌈q⌉ else ⌊q⌋

/-- One element of `labels.data.byte()`: cast to `uint8` (truncate, mod 256). -/
def byteCast (q : ℚ) : ℕ := ((pytrunc q) % 256).toNat

/-- `uint8` addition (wraps modulo 256). -/
def byteAdd (a b : ℕ) : ℕ := (a + b) % 256

/-- `uint8` subtraction (wraps modulo 256); `a` and `b` are below 256. -/
def byteSub (a b : ℕ) : ℕ := (a + 256 - b) % 256

/-- Elementwise test behind `(pred + labels.data.byte()).eq(2)`. -/
def tpPred (p : ℚ × ℚ) : Bool := byteAdd (predByte p.1) (byteCast p.2) == 2

/-- Elementwise test behind `(pred - labels.data.byte()).eq(1)`. -/
def fpPred (p : ℚ × ℚ) : Bool := byteSub (predByte p.1) (byteCast p.2) == 1

/-- Elementwise test behind `(pred - labels.data.byte()).eq(-1)`; the
literal `-1` casts to the `uint8` value 255. -/
def fnPred (p : ℚ × ℚ) : Bool := byteSub (predByte p.1) (byteCast p.2) == 255

/-- Elementwise test behind `(pred + labels.data.byte()).eq(0)`. -/
def tnPred (p : ℚ × ℚ) : Bool := byteAdd (predByte p.1) (byteCast p.2) == 0

/-- `tp = (pred + labels.data.byte()).eq(2).sum()`. -/
def tpCount (outputs labels : Tensor ℚ) : ℕ :=
  (List.zip outputs.data labels.data).countP tpPred

/-- `fp = (pred - labels.data.byte()).eq(1).sum()`. -/
def fpCount (outputs labels : Tensor ℚ) : ℕ :=
  (List.zip outputs.data labels.data).countP fpPred

/-- `fn = (pred - labels.data.byte()).eq(-1).sum()`. -/
def fnCount (outputs labels : Tensor ℚ) : ℕ :=
  (List.zip outputs.data labels.data).countP fnPred

/-- `tn = (pred + labels.data.byte()).eq(0).sum()`. -/
def tnCount (outputs labels : Tensor ℚ) : ℕ :=
  (List.zip outputs.data labels.data).countP tnPred

/-- Python scalar division: raises `ZeroDivisionError` on denominator 0. -/
def pydiv (a b : ℚ) : Except String ℚ :=
  if b = 0 then Except.error "ZeroDivisionError: division by zero"
  else Except.ok (a / b)

/-- `try: v = a/b except ZeroDivisionError: v = 0.0`. -/
def tryZeroDiv (e : Except String ℚ) : ℚ :=
  match e with
  | Except.ok v => v
  | Except.error _ => 0

/-- `accuracy(outputs, labels)` (lines 174-186). -/
def accuracy (outputs labels : Tensor ℚ) : Except String ℚ :=
  let tp := (tpCount outputs labels : ℚ)
  let fp := (fpCount outputs labels : ℚ)
  let fn := (fnCount outputs labels : ℚ)
  let tn := (tnCount outputs labels : ℚ)
  pydiv (tp + tn) (tp + tn + fp + fn)

/-- `precision(outputs, labels)` (lines 188-204): the unused `acc` division
still executes (and can raise) before the guarded `tp/(tp+fp)` division. -/
def precision (outputs labels : Tensor ℚ) : Except String ℚ := do
  let tp := (tpCount outputs labels : ℚ)
  let fp := (fpCount outputs labels : ℚ)
  let fn := (fnCount outputs labels : ℚ)
  let tn := (tnCount outputs labels : ℚ)
  let _acc ← pydiv (tp + tn) (tp + tn + fp + fn)
  pure (tryZeroDiv (pydiv tp (tp + fp)))

/-- `recall(outputs, labels)` (lines 206-222): the unused `acc` division
still executes (and can raise) before the guarded `tp/(tp+fn)` division. -/
def recall_fn (outputs labels : Tensor ℚ) : Except String ℚ := do
  let tp := (tpCount outputs labels : ℚ)
  let fp := (fpCount outputs labels : ℚ)
  let fn := (fnCount outputs labels : ℚ)
  let tn := (tnCount outputs labels : ℚ)
  let _acc ← pydiv (tp + tn) (tp + tn + fp + fn)
  pure (tryZeroDiv (pydiv tp (tp + fn)))

/-! Specification-side confusion counts, written directly from the spec's
words for binary labels: a prediction is positive when the output element
strictly exceeds 0.5, and the four counts classify each (prediction, label)
pair. -/

/-- Spec-side true positives: output strictly above 0.5 and label 1. -/
def tpSpec (outputs labels : Tensor ℚ) : ℕ :=
  (List.zip outputs.data labels.data).countP (fun p => p.1 > 1/2 && p.2 == 1)

/-- Spec-side false positives: output strictly above 0.5 and label 0. -/
def fpSpec (outputs labels : Tensor ℚ) : ℕ :=
  (List.zip outputs.data labels.data).countP (fun p => p.1 > 1/2 && p.2 == 0)

/-- Spec-side false negatives: output not above 0.5 and label 1. -/
def fnSpec (outputs labels : Tensor ℚ) : ℕ :=
  (List.zip outputs.data labels.data).countP (fun p => !(p.1 > 1/2 : Bool) && p.2 == 1)

/-- Spec-side true negatives: output not above 0.5 and label 0. -/
def tnSpec (outputs labels : Tensor ℚ) : ℕ :=
  (List.zip outputs.data labels.data).countP (fun p => !(p.1 > 1/2 : Bool) && p.2 == 0)

/-! ### DenseNet constructor (lines 70-133)

Only the construction-time integer bookkeeping is embedded: which internal
layers each dense block holds (with their input channel counts) and the
channel counts wired into each stage.  Python `//` on integers is floor
division (`Int.fdiv`); `int(math.floor(nChannels*reduction))` is the floor
of an exact rational product. -/

/-- A dense-block internal layer: a `Bottleneck(nChannels, growthRate)`
(whose hidden width is `interChannels = 4*growthRate`) or a
`SingleLayer(nChannels, growthRate)`. -/
inductive DenseLayer where
  | bottleneckL (nChannels growthRate : ℤ) : DenseLayer
  | singleL (nChannels growthRate : ℤ) : DenseLayer
deriving DecidableEq, Repr

/-- `DenseNetBase._make_dense` (lines 122-133): builds
`range(int(nDenseBlocks))` layers, growing `nChannels` by `growthRate`
after each. -/
def make_dense (nChannels growthRate : ℤ) (n : ℕ) (bottleneck : Bool) :
    List DenseLayer :=
  match n with
  | 0 => []
  | Nat.succ m =>
    (if bottleneck then DenseLayer.bottleneckL nChannels growthRate
     else DenseLayer.singleL nChannels growthRate) ::
      make_dense (nChannels + growthRate) growthRate m bottleneck

/-- The configuration object: `params.growthRate`, `params.depth`,
`params.reduction`, `params.bottleneck`. -/
structure Params where
  growthRate : ℤ
  depth : ℤ
  reduction : ℚ
  bottleneck : Bool
deriving DecidableEq, Repr

/-- The construction-time record of `DenseNetBase`: the layer lists of its
three dense blocks and the channel counts of every stage. -/
structure DenseNetBase where
  nDenseBlocks : ℤ
  conv1_in : ℤ
  conv1_out : ℤ
  dense1 : List DenseLayer
  trans1_in : ℤ
  trans1_out : ℤ
  dense2 : List DenseLayer
  trans2_in : ℤ
  trans2_out : ℤ
  dense3 : List DenseLayer
  bn1_features : ℤ
  fc_in : ℤ
  fc_out : ℤ
deriving DecidableEq, Repr

/-- `DenseNetBase.__init__` (lines 75-120): the flag read from the
configuration is commented out in the source (`bottleneck = True
#params.bottleneck`), so `bottleneck` is the literal `True`. -/
def DenseNetBase_init (params : Params) (num_classes : ℤ) : DenseNetBase :=
  let growthRate := params.growthRate
  let depth := params.depth
  let reduction := params.reduction
  let nClasses := num_classes
  let bottleneck := true
  let nDB0 := Int.fdiv (depth - 4) 3
  let nDenseBlocks := if bottleneck then Int.fdiv nDB0 2 else nDB0
  let nChannels := 2 * growthRate
  let conv1_out := nChannels
  let dense1 := make_dense nChannels growthRate nDenseBlocks.toNat bottleneck
  let nChannels1 := nChannels + nDenseBlocks * growthRate
  let nOutChannels1 := Int.floor ((nChannels1 : ℚ) * reduction)
  let dense2 := make_dense nOutChannels1 growthRate nDenseBlocks.toNat bottleneck
  let nChannels2 := nOutChannels1 + nDenseBlocks * growthRate
  let nOutChannels2 := Int.floor ((nChannels2 : ℚ) * reduction)
  let dense3 := make_dense nOutChannels2 growthRate nDenseBlocks.toNat bottleneck
  let nChannels3 := nOutChannels2 + nDenseBlocks * growthRate
  { nDenseBlocks := nDenseBlocks
    conv1_in := 1
    conv1_out := conv1_out
    dense1 := dense1
    trans1_in := nChannels1
    trans1_out := nOutChannels1
    dense2 := dense2
    trans2_in := nChannels2
    trans2_out := nOutChannels2
    dense3 := dense3
    bn1_features := nChannels3
    fc_in := nChannels3
    fc_out := nClasses }

/-- Whether a dense-block internal layer is a `Bottleneck` unit. -/
def DenseLayer.isBottleneck : DenseLayer → Bool
  | DenseLayer.bottleneckL _ _ => true
  | DenseLayer.singleL _ _ => false

lemma lossElem_eq_stableLoss (x z : ℝ) : lossElem x z = stableLoss x z := by
  simp only [lossElem, stableLoss]
  rcases le_total x 0 with hx | hx
  · have hmax : max (-x) 0 = -x := max_eq_left (by linarith)
    have habs : |x| = -x := abs_of_nonpos hx
    have hmax0 : max x 0 = 0 := max_eq_right hx
    rw [hmax, habs, hmax0]
    have : -x - -x = 0 := by ring
    rw [this, Real.exp_zero, neg_neg, add_comm (Real.exp x) 1]
    ring
  · have hmax : max (-x) 0 = 0 := max_eq_right (by linarith)
    have habs : |x| = x := abs_of_nonneg hx
    have hmax0 : max x 0 = x := max_eq_left hx
    rw [hmax, habs, hmax0, neg_zero, Real.exp_zero]
    have : -x - 0 = -x := by ring
    rw [this]
    ring

lemma stableLoss_nonneg (x z : ℝ) (hz0 : 0 ≤ z) (hz1 : z ≤ 1) :
    0 ≤ stableLoss x z := by
  unfold stableLoss
  have hlog : 0 ≤ Real.log (1 + Real.exp (-|x|)) := by
    apply Real.log_nonneg
    have := Real.exp_pos (-|x|)
    linarith
  rcases le_total x 0 with hx | hx
  · have hmax : max x 0 = 0 := max_eq_right hx
    have hxz : x * z ≤ 0 := mul_nonpos_of_nonpos_of_nonneg hx hz0
    rw [hmax]
    linarith
  · have hmax : max x 0 = x := max_eq_left hx
    have hxz : x * z ≤ x := by
      calc x * z ≤ x * 1 := mul_le_mul_of_nonneg_left hz1 hx
      _ = x := mul_one x
    rw [hmax]
    linarith

lemma rmean_nonneg (xs : List ℝ) (h : ∀ x ∈ xs, 0 ≤ x) : 0 ≤ rmean xs := by
  unfold rmean
  exact div_nonneg (List.sum_nonneg h) (Nat.cast_nonneg _)

lemma zipWith_eq_map_zip {α β γ : Type} (f : α → β → γ) :
    ∀ (l₁ : List α) (l₂ : List β),
      List.zipWith f l₁ l₂ = (List.zip l₁ l₂).map fun p => f p.1 p.2
  | [], _ => by simp
  | _ :: _, [] => by simp
  | a :: t₁, b :: t₂ => by
    simp [List.zip_cons_cons, zipWith_eq_map_zip f t₁ t₂]

lemma make_dense_all_bottleneck (g : ℤ) :
    ∀ (n : ℕ) (c : ℤ), ∀ L ∈ make_dense c g n true, L.isBottleneck = true
  | 0, c => by simp [make_dense]
  | Nat.succ m, c => by
    intro L hL
    rw [make_dense] at hL
    rcases List.mem_cons.mp hL with h | h
    · subst h; rfl
    · exact make_dense_all_bottleneck g m (c + g) L h

lemma byteCast_zero : byteCast 0 = 0 := by decide

lemma byteCast_one : byteCast 1 = 1 := by decide

lemma tpPred_eq_spec (x z : ℚ) (hz : z = 0 ∨ z = 1) :
    tpPred (x, z) = (decide (x > 1/2) && (z == 1)) := by
  rcases hz with hz | hz <;> subst hz <;>
    simp only [tpPred, predByte, byteCast_zero, byteCast_one, byteAdd] <;>
    split <;> simp_all

lemma fpPred_eq_spec (x z : ℚ) (hz : z = 0 ∨ z = 1) :
    fpPred (x, z) = (decide (x > 1/2) && (z == 0)) := by
  rcases hz with hz | hz <;> subst hz <;>
    simp only [fpPred, predByte, byteCast_zero, byteCast_one, byteSub] <;>
    split <;> simp_all

lemma fnPred_eq_spec (x z : ℚ) (hz : z = 0 ∨ z = 1) :
    fnPred (x, z) = (!(decide (x > 1/2)) && (z == 1)) := by
  rcases hz with hz | hz <;> subst hz <;>
    simp only [fnPred, predByte, byteCast_zero, byteCast_one, byteSub] <;>
    split <;> simp_all

lemma tnPred_eq_spec (x z : ℚ) (hz : z = 0 ∨ z = 1) :
    tnPred (x, z) = (!(decide (x > 1/2)) && (z == 0)) := by
  rcases hz with hz | hz <;> subst hz <;>
    simp only [tnPred, predByte, byteCast_zero, byteCast_one, byteAdd] <;>
    split <;> simp_all

lemma pred_toNat_one (x z : ℚ) (hz : z = 0 ∨ z = 1) :
    (tpPred (x, z)).toNat + (fpPred (x, z)).toNat +
      (fnPred (x, z)).toNat + (tnPred (x, z)).toNat = 1 := by
  rcases hz with hz | hz <;> subst hz <;>
    simp only [tpPred, fpPred, fnPred, tnPred, predByte,
      byteCast_zero, byteCast_one, byteAdd, byteSub] <;>
    by_cases hx : (2⁻¹ : ℚ) < x <;> simp [hx]

lemma countP_four {α : Type} (p q r s : α → Bool) :
    ∀ l : List α,
      (∀ a ∈ l, (p a).toNat + (q a).toNat + (r a).toNat + (s a).toNat = 1) →
      l.countP p + l.countP q + l.countP r + l.countP s = l.length
  | [], _ => by simp
  | a :: t, h => by
    have ha := h a (List.mem_cons_self a t)
    have ih := countP_four p q r s t (fun b hb => h b (List.mem_cons_of_mem a hb))
    simp only [List.countP_cons, List.length_cons]
    cases hp : p a <;> cases hq : q a <;> cases hr : r a <;> cases hs : s a <;>
      simp [hp, hq, hr, hs] at ha ⊢ <;> omega

lemma tpCount_eq_tpSpec (o l : Tensor ℚ) (hb : ∀ z ∈ l.data, z = 0 ∨ z = 1) :
    tpCount o l = tpSpec o l := by
  unfold tpCount tpSpec
  apply List.countP_congr
  intro p hp
  obtain ⟨x, z⟩ := p
  rw [tpPred_eq_spec x z (hb z (List.of_mem_zip hp).2)]

lemma fpCount_eq_fpSpec (o l : Tensor ℚ) (hb : ∀ z ∈ l.data, z = 0 ∨ z = 1) :
    fpCount o l = fpSpec o l := by
  unfold fpCount fpSpec
  apply List.countP_congr
  intro p hp
  obtain ⟨x, z⟩ := p
  rw [fpPred_eq_spec x z (hb z (List.of_mem_zip hp).2)]

lemma fnCount_eq_fnSpec (o l : Tensor ℚ) (hb : ∀ z ∈ l.data, z = 0 ∨ z = 1) :
    fnCount o l = fnSpec o l := by
  unfold fnCount fnSpec
  apply List.countP_congr
  intro p hp
  obtain ⟨x, z⟩ := p
  rw [fnPred_eq_spec x z (hb z (List.of_mem_zip hp).2)]

lemma tnCount_eq_tnSpec (o l : Tensor ℚ) (hb : ∀ z ∈ l.data, z = 0 ∨ z = 1) :
    tnCount o l = tnSpec o l := by
  unfold tnCount tnSpec
  apply List.countP_congr
  intro p hp
  obtain ⟨x, z⟩ := p
  rw [tnPred_eq_spec x z (hb z (List.of_mem_zip hp).2)]

lemma counts_sum_eq_length (o l : Tensor ℚ) (hb : ∀ z ∈ l.data, z = 0 ∨ z = 1) :
    tpCount o l + fpCount o l + fnCount o l + tnCount o l =
      (List.zip o.data l.data).length := by
  unfold tpCount fpCount fnCount tnCount
  apply countP_four
  intro a ha
  obtain ⟨x, z⟩ := a
  exact pred_toNat_one x z (hb z (List.of_mem_zip ha).2)

lemma pydiv_ok {A B : ℚ} (hB : B ≠ 0) : pydiv A B = Except.ok (A / B) := by
  unfold pydiv
  rw [if_neg hB]

lemma counts_cast_ne_zero (o l : Tensor ℚ)
    (h : tpCount o l + tnCount o l + fpCount o l + fnCount o l ≠ 0) :
    ((tpCount o l : ℚ) + tnCount o l + fpCount o l + fnCount o l) ≠ 0 := by
  intro h0
  exact h (by exact_mod_cast h0)

lemma accuracy_eq (o l : Tensor ℚ)
    (hq : ((tpCount o l : ℚ) + tnCount o l + fpCount o l + fnCount o l) ≠ 0) :
    accuracy o l = Except.ok (((tpCount o l : ℚ) + tnCount o l) /
      ((tpCount o l : ℚ) + tnCount o l + fpCount o l + fnCount o l)) := by
  unfold accuracy
  dsimp only
  rw [pydiv_ok hq]

lemma precision_eq (o l : Tensor ℚ)
    (hq : ((tpCount o l : ℚ) + tnCount o l + fpCount o l + fnCount o l) ≠ 0) :
    precision o l =
      Except.ok (tryZeroDiv (pydiv (tpCount o l) ((tpCount o l : ℚ) + fpCount o l))) := by
  unfold precision
  dsimp only
  rw [pydiv_ok hq]
  rfl

lemma recall_fn_eq (o l : Tensor ℚ)
    (hq : ((tpCount o l : ℚ) + tnCount o l + fpCount o l + fnCount o l) ≠ 0) :
    recall_fn o l =
      Except.ok (tryZeroDiv (pydiv (tpCount o l) ((tpCount o l : ℚ) + fnCount o l))) := by
  unfold recall_fn
  dsimp only
  rw [pydiv_ok hq]
  rfl

lemma make_dense_length (g : ℤ) (bk : Bool) :
    ∀ (n : ℕ) (c : ℤ), (make_dense c g n bk).length = n
  | 0, _ => rfl
  | Nat.succ m, c => by
    rw [make_dense]
    simp [make_dense_length g bk m (c + g)]

/-! ### Claim theorems -/

/-- C1: the per-element loss expression of `loss_fn` —
`x - x*z + max(-x,0) + log(exp(-max(-x,0)) + exp(-x - max(-x,0)))` — equals
the stable reference formulation `max(x,0) - x*z + log(1 + exp(-|x|))` for
every real input `x` and label `z`, and on same-shaped tensors `loss_fn`
returns the mean of this quantity over all elements. -/
theorem loss_fn_stable_formulation :
    (∀ x z : ℝ, lossElem x z = stableLoss x z) ∧
    ∀ (outputs labels : Tensor ℝ), labels.shape = outputs.shape →
      loss_fn outputs labels =
        Except.ok (rmean (List.zipWith stableLoss outputs.data labels.data)) := by
  constructor
  · exact lossElem_eq_stableLoss
  · intro o l h
    have hfun : lossElem = stableLoss :=
      funext fun x => funext fun z => lossElem_eq_stableLoss x z
    simp [loss_fn, h, hfun]

/-- Witness for C1 at `outputs = [1]`, `labels = [0]`, both of shape `[1]`. -/
theorem loss_fn_stable_formulation_witness :
    lossElem 1 0 = stableLoss 1 0 ∧
    loss_fn ⟨[1], [1], rfl⟩ ⟨[1], [0], rfl⟩ =
      Except.ok (rmean (List.zipWith stableLoss [1] [0])) :=
  ⟨loss_fn_stable_formulation.1 1 0,
   loss_fn_stable_formulation.2 ⟨[1], [1], rfl⟩ ⟨[1], [0], rfl⟩ rfl⟩

/-- C2: `loss_fn` returns a shape-mismatch `ValueError` exactly when the
two tensors differ in shape. -/
theorem loss_fn_shape_error_iff :
    ∀ (outputs labels : Tensor ℝ),
      (∃ e, loss_fn outputs labels = Except.error e) ↔
        labels.shape ≠ outputs.shape := by
  intro o l
  unfold loss_fn
  by_cases h : l.shape = o.shape
  · simp [h]
  · simp [h]

/-- C3: on same-shaped, non-empty tensors whose labels lie in `[0,1]` (the
contract: values in `{0,1}` or soft multi-hot), `loss_fn` returns a scalar
and that scalar is non-negative. -/
theorem loss_fn_nonneg :
    ∀ (outputs labels : Tensor ℝ), labels.shape = outputs.shape →
      outputs.data ≠ [] →
      (∀ z ∈ labels.data, 0 ≤ z ∧ z ≤ 1) →
      loss_fn outputs labels =
        Except.ok (rmean (List.zipWith lossElem outputs.data labels.data)) ∧
      0 ≤ rmean (List.zipWith lossElem outputs.data labels.data) := by
  intro o l hsh hne hz
  refine ⟨by simp [loss_fn, hsh], ?_⟩
  apply rmean_nonneg
  intro y hy
  rw [zipWith_eq_map_zip] at hy
  obtain ⟨p, hp, rfl⟩ := List.mem_map.mp hy
  obtain ⟨x, z⟩ := p
  have hzz := hz z (List.of_mem_zip hp).2
  rw [lossElem_eq_stableLoss]
  exact stableLoss_nonneg x z hzz.1 hzz.2

/-- Witness for C3 at `outputs = [1]`, `labels = [0]`. -/
theorem loss_fn_nonneg_witness :
    loss_fn ⟨[1], [1], rfl⟩ ⟨[1], [0], rfl⟩ =
      Except.ok (rmean (List.zipWith lossElem [1] [0])) ∧
    0 ≤ rmean (List.zipWith lossElem [1] [0]) :=
  loss_fn_nonneg ⟨[1], [1], rfl⟩ ⟨[1], [0], rfl⟩ rfl (by simp)
    (by
      intro z hzm
      simp only [List.mem_singleton] at hzm
      subst hzm
      norm_num)

/-- C4: the constructed per-block layer count is
`floor((depth - 4) / 3)` halved again by integer division, the externally
supplied bottleneck flag has no effect on the constructed network, and
every dense-block internal layer is a `Bottleneck` unit. -/
theorem init_bottleneck_hardcoded :
    ∀ (p : Params) (b : Bool) (nc : ℤ),
      (DenseNetBase_init p nc).nDenseBlocks =
        Int.fdiv (Int.fdiv (p.depth - 4) 3) 2 ∧
      (DenseNetBase_init p nc).dense1.length =
        (Int.fdiv (Int.fdiv (p.depth - 4) 3) 2).toNat ∧
      DenseNetBase_init { p with bottleneck := b } nc = DenseNetBase_init p nc ∧
      ∀ L ∈ (DenseNetBase_init p nc).dense1 ++ (DenseNetBase_init p nc).dense2 ++
          (DenseNetBase_init p nc).dense3, L.isBottleneck = true := by
  intro p b nc
  refine ⟨rfl, make_dense_length _ _ _ _, rfl, ?_⟩
  intro L hL
  rcases List.mem_append.mp hL with h12 | h3
  · rcases List.mem_append.mp h12 with h1 | h2
    · exact make_dense_all_bottleneck p.growthRate _ _ L h1
    · exact make_dense_all_bottleneck p.growthRate _ _ L h2
  · exact make_dense_all_bottleneck p.growthRate _ _ L h3

/-- Witness for C4: with the configuration flag set to `false`, the first
constructed layer is still a `Bottleneck` unit. -/
theorem init_bottleneck_hardcoded_witness :
    (DenseLayer.bottleneckL 24 12).isBottleneck = true :=
  (init_bottleneck_hardcoded ⟨12, 100, 1/2, false⟩ true 50).2.2.2
    (DenseLayer.bottleneckL 24 12) (by decide)

/-- C5: for depth 100, growth rate 12, reduction 1/2 the channel counts are
16 internal layers per block, 24 initial channels, 216 after dense block 1,
108 after transition 1, 300 after dense block 2, 150 after transition 2,
and 342 feeding the final batch-norm and the linear classifier. -/
theorem channel_progression_depth100 :
    ∀ (b : Bool) (nc : ℤ),
      (DenseNetBase_init ⟨12, 100, 1/2, b⟩ nc).nDenseBlocks = 16 ∧
      (DenseNetBase_init ⟨12, 100, 1/2, b⟩ nc).conv1_out = 24 ∧
      (DenseNetBase_init ⟨12, 100, 1/2, b⟩ nc).dense1.length = 16 ∧
      (DenseNetBase_init ⟨12, 100, 1/2, b⟩ nc).trans1_in = 216 ∧
      (DenseNetBase_init ⟨12, 100, 1/2, b⟩ nc).trans1_out = 108 ∧
      (DenseNetBase_init ⟨12, 100, 1/2, b⟩ nc).dense2.length = 16 ∧
      (DenseNetBase_init ⟨12, 100, 1/2, b⟩ nc).trans2_in = 300 ∧
      (DenseNetBase_init ⟨12, 100, 1/2, b⟩ nc).trans2_out = 150 ∧
      (DenseNetBase_init ⟨12, 100, 1/2, b⟩ nc).dense3.length = 16 ∧
      (DenseNetBase_init ⟨12, 100, 1/2, b⟩ nc).bn1_features = 342 ∧
      (DenseNetBase_init ⟨12, 100, 1/2, b⟩ nc).fc_in = 342 := by
  intro b nc
  have e1 : (⌊((216 : ℤ) : ℚ) * (1/2 : ℚ)⌋ : ℤ) = 108 := by
    push_cast
    norm_num
  have e2 : (⌊((216 : ℤ) : ℚ) * (1/2 : ℚ)⌋ + 192 : ℤ) = 300 := by
    push_cast
    norm_num
  have e3 : (⌊((⌊((216 : ℤ) : ℚ) * (1/2 : ℚ)⌋ + 192 : ℤ) : ℚ) * (1/2 : ℚ)⌋ : ℤ) = 150 := by
    push_cast
    norm_num
  have e4 : (⌊((⌊((216 : ℤ) : ℚ) * (1/2 : ℚ)⌋ + 192 : ℤ) : ℚ) * (1/2 : ℚ)⌋ + 192 : ℤ) = 342 := by
    push_cast
    norm_num
  exact ⟨rfl, rfl, rfl, rfl, e1, rfl, e2, e3, rfl, e4, e4⟩

/-- C6: on a non-empty batch with binary labels, `accuracy` thresholds the
outputs strictly above 0.5, forms the four confusion counts jointly over
all elements, and returns `(tp+tn)/(tp+tn+fp+fn)`. -/
theorem accuracy_spec_counts :
    ∀ (outputs labels : Tensor ℚ),
      (∀ z ∈ labels.data, z = 0 ∨ z = 1) →
      List.zip outputs.data labels.data ≠ [] →
      accuracy outputs labels = Except.ok
        (((tpSpec outputs labels : ℚ) + tnSpec outputs labels) /
         ((tpSpec outputs labels : ℚ) + tnSpec outputs labels +
          fpSpec outputs labels + fnSpec outputs labels)) := by
  intro o l hb hne
  have hnat : tpCount o l + tnCount o l + fpCount o l + fnCount o l ≠ 0 := by
    have hsum := counts_sum_eq_length o l hb
    have hlen : (List.zip o.data l.data).length ≠ 0 :=
      fun h0 => hne (List.length_eq_zero.mp h0)
    omega
  rw [accuracy_eq o l (counts_cast_ne_zero o l hnat),
    tpCount_eq_tpSpec o l hb, tnCount_eq_tnSpec o l hb,
    fpCount_eq_fpSpec o l hb, fnCount_eq_fnSpec o l hb]

/-- Witness for C6 at `outputs = [1, 0]`, `labels = [1, 0]`. -/
theorem accuracy_spec_counts_witness :
    accuracy ⟨[2], [1, 0], rfl⟩ ⟨[2], [1, 0], rfl⟩ = Except.ok 1 := by
  rw [accuracy_spec_counts ⟨[2], [1, 0], rfl⟩ ⟨[2], [1, 0], rfl⟩
    (by intro z hz; fin_cases hz <;> norm_num) (by simp)]
  norm_num [tpSpec, tnSpec, fpSpec, fnSpec,
    List.zip_cons_cons, List.countP_cons, List.countP_nil]

/-- C7: whenever the (unguarded) accuracy division inside `precision` and
`recall` is defined, `precision` returns `tp/(tp+fp)` and `recall` returns
`tp/(tp+fn)`, with the guarded zero-denominator cases returning 0. -/
theorem precision_recall_guard :
    ∀ (outputs labels : Tensor ℚ),
      tpCount outputs labels + tnCount outputs labels +
        fpCount outputs labels + fnCount outputs labels ≠ 0 →
      (tpCount outputs labels + fpCount outputs labels = 0 →
        precision outputs labels = Except.ok 0) ∧
      (tpCount outputs labels + fpCount outputs labels ≠ 0 →
        precision outputs labels = Except.ok ((tpCount outputs labels : ℚ) /
          ((tpCount outputs labels : ℚ) + fpCount outputs labels))) ∧
      (tpCount outputs labels + fnCount outputs labels = 0 →
        recall_fn outputs labels = Except.ok 0) ∧
      (tpCount outputs labels + fnCount outputs labels ≠ 0 →
        recall_fn outputs labels = Except.ok ((tpCount outputs labels : ℚ) /
          ((tpCount outputs labels : ℚ) + fnCount outputs labels))) := by
  intro o l htot
  have hq := counts_cast_ne_zero o l htot
  refine ⟨?_, ?_, ?_, ?_⟩
  · intro h0
    obtain ⟨h1, h2⟩ := Nat.add_eq_zero.mp h0
    rw [precision_eq o l hq]
    simp [pydiv, tryZeroDiv, h1, h2]
  · intro h0
    have hd : ((tpCount o l : ℚ) + fpCount o l) ≠ 0 := by
      intro hc
      exact h0 (by exact_mod_cast hc)
    rw [precision_eq o l hq, pydiv_ok hd]
    rfl
  · intro h0
    obtain ⟨h1, h2⟩ := Nat.add_eq_zero.mp h0
    rw [recall_fn_eq o l hq]
    simp [pydiv, tryZeroDiv, h1, h2]
  · intro h0
    have hd : ((tpCount o l : ℚ) + fnCount o l) ≠ 0 := by
      intro hc
      exact h0 (by exact_mod_cast hc)
    rw [recall_fn_eq o l hq, pydiv_ok hd]
    rfl

set_option maxRecDepth 8000 in
/-- Witness for C7 at `outputs = [0]`, `labels = [0]`: no positive
prediction and no positive label, so both guarded divisions return 0. -/
theorem precision_recall_guard_witness :
    precision ⟨[1], [0], rfl⟩ ⟨[1], [0], rfl⟩ = Except.ok 0 ∧
    recall_fn ⟨[1], [0], rfl⟩ ⟨[1], [0], rfl⟩ = Except.ok 0 := by
  have h := precision_recall_guard ⟨[1], [0], rfl⟩ ⟨[1], [0], rfl⟩
    (by norm_num [tpCount, tnCount, fpCount, fnCount, tpPred, tnPred, fpPred,
      fnPred, predByte, byteCast, pytrunc, byteAdd, byteSub,
      List.zip_cons_cons, List.countP_cons, List.countP_nil])
  exact ⟨h.1 (by norm_num [tpCount, fpCount, tpPred, fpPred, predByte,
      byteCast, pytrunc, byteAdd, byteSub,
      List.zip_cons_cons, List.countP_cons, List.countP_nil]),
    h.2.2.1 (by norm_num [tpCount, fnCount, tpPred, fnPred, predByte,
      byteCast, pytrunc, byteAdd, byteSub,
      List.zip_cons_cons, List.countP_cons, List.countP_nil])⟩

/-- C8: on a non-empty batch with binary labels, the value returned by
`accuracy` plus the complementary error rate `(fp+fn)/(tp+tn+fp+fn)` of
the same thresholded predictions equals 1. -/
theorem accuracy_error_rate_sum :
    ∀ (outputs labels : Tensor ℚ),
      (∀ z ∈ labels.data, z = 0 ∨ z = 1) →
      List.zip outputs.data labels.data ≠ [] →
      accuracy outputs labels = Except.ok
        (((tpCount outputs labels : ℚ) + tnCount outputs labels) /
         ((tpCount outputs labels : ℚ) + tnCount outputs labels +
          fpCount outputs labels + fnCount outputs labels)) ∧
      (((tpCount outputs labels : ℚ) + tnCount outputs labels) /
         ((tpCount outputs labels : ℚ) + tnCount outputs labels +
          fpCount outputs labels + fnCount outputs labels)) +
        (((fpCount outputs labels : ℚ) + fnCount outputs labels) /
         ((tpCount outputs labels : ℚ) + tnCount outputs labels +
          fpCount outputs labels + fnCount outputs labels)) = 1 := by
  intro o l hb hne
  have hnat : tpCount o l + tnCount o l + fpCount o l + fnCount o l ≠ 0 := by
    have hsum := counts_sum_eq_length o l hb
    have hlen : (List.zip o.data l.data).length ≠ 0 :=
      fun h0 => hne (List.length_eq_zero.mp h0)
    omega
  have hq := counts_cast_ne_zero o l hnat
  refine ⟨accuracy_eq o l hq, ?_⟩
  rw [div_add_div_same, div_eq_one_iff_eq hq]
  ring

set_option maxRecDepth 8000 in
/-- Witness for C8 at `outputs = [1, 0]`, `labels = [1, 1]`. -/
theorem accuracy_error_rate_sum_witness :
    accuracy ⟨[2], [1, 0], rfl⟩ ⟨[2], [1, 1], rfl⟩ = Except.ok (1/2) ∧
    (((tpCount ⟨[2], [1, 0], rfl⟩ ⟨[2], [1, 1], rfl⟩ : ℚ) +
        tnCount ⟨[2], [1, 0], rfl⟩ ⟨[2], [1, 1], rfl⟩) /
      ((tpCount ⟨[2], [1, 0], rfl⟩ ⟨[2], [1, 1], rfl⟩ : ℚ) +
        tnCount ⟨[2], [1, 0], rfl⟩ ⟨[2], [1, 1], rfl⟩ +
        fpCount ⟨[2], [1, 0], rfl⟩ ⟨[2], [1, 1], rfl⟩ +
        fnCount ⟨[2], [1, 0], rfl⟩ ⟨[2], [1, 1], rfl⟩)) +
      (((fpCount ⟨[2], [1, 0], rfl⟩ ⟨[2], [1, 1], rfl⟩ : ℚ) +
        fnCount ⟨[2], [1, 0], rfl⟩ ⟨[2], [1, 1], rfl⟩) /
      ((tpCount ⟨[2], [1, 0], rfl⟩ ⟨[2], [1, 1], rfl⟩ : ℚ) +
        tnCount ⟨[2], [1, 0], rfl⟩ ⟨[2], [1, 1], rfl⟩ +
        fpCount ⟨[2], [1, 0], rfl⟩ ⟨[2], [1, 1], rfl⟩ +
        fnCount ⟨[2], [1, 0], rfl⟩ ⟨[2], [1, 1], rfl⟩)) = 1 := by
  have h := accuracy_error_rate_sum ⟨[2], [1, 0], rfl⟩ ⟨[2], [1, 1], rfl⟩
    (by intro z hz; fin_cases hz <;> norm_num) (by simp)
  refine ⟨?_, h.2⟩
  rw [h.1]
  norm_num [tpCount, tnCount, fpCount, fnCount, tpPred, tnPred, fpPred, fnPred,
    predByte, byteCast, pytrunc, byteAdd, byteSub,
    List.zip_cons_cons, List.countP_cons, List.countP_nil]

/-- C9: when the thresholded predictions coincide with binary labels and at
least one label is positive, `precision` and `recall` both return 1. -/
theorem precision_recall_perfect :
    ∀ (outputs labels : Tensor ℚ),
      (∀ z ∈ labels.data, z = 0 ∨ z = 1) →
      (∀ p ∈ List.zip outputs.data labels.data,
        decide (p.1 > 1/2) = (p.2 == 1)) →
      (∃ p ∈ List.zip outputs.data labels.data, p.2 = 1) →
      precision outputs labels = Except.ok 1 ∧
      recall_fn outputs labels = Except.ok 1 := by
  intro o l hb hpred hpos
  have hfp : fpCount o l = 0 := by
    apply List.countP_eq_zero.mpr
    intro p hp
    obtain ⟨x, z⟩ := p
    rw [fpPred_eq_spec x z (hb z (List.of_mem_zip hp).2)]
    have hp' := hpred (x, z) hp
    rcases hb z (List.of_mem_zip hp).2 with hz | hz <;> subst hz <;> simp_all
  have hfn : fnCount o l = 0 := by
    apply List.countP_eq_zero.mpr
    intro p hp
    obtain ⟨x, z⟩ := p
    rw [fnPred_eq_spec x z (hb z (List.of_mem_zip hp).2)]
    have hp' := hpred (x, z) hp
    rcases hb z (List.of_mem_zip hp).2 with hz | hz <;> subst hz <;> simp_all
  have htp : 0 < tpCount o l := by
    apply List.countP_pos_iff.mpr
    obtain ⟨p, hp, hz⟩ := hpos
    obtain ⟨x, z⟩ := p
    subst hz
    refine ⟨(x, 1), hp, ?_⟩
    rw [tpPred_eq_spec x 1 (Or.inr rfl)]
    have hp' := hpred (x, 1) hp
    simp_all
  have hnat : tpCount o l + tnCount o l + fpCount o l + fnCount o l ≠ 0 := by
    omega
  have hq := counts_cast_ne_zero o l hnat
  have htpq : (tpCount o l : ℚ) ≠ 0 := Nat.cast_ne_zero.mpr (by omega)
  constructor
  · rw [precision_eq o l hq, hfp]
    have hd : ((tpCount o l : ℚ) + (0 : ℕ)) ≠ 0 := by
      push_cast
      simpa using htpq
    rw [pydiv_ok hd]
    simp [tryZeroDiv, div_self htpq]
  · rw [recall_fn_eq o l hq, hfn]
    have hd : ((tpCount o l : ℚ) + (0 : ℕ)) ≠ 0 := by
      push_cast
      simpa using htpq
    rw [pydiv_ok hd]
    simp [tryZeroDiv, div_self htpq]

/-- Witness for C9 at `outputs = [1, 0]`, `labels = [1, 0]`. -/
theorem precision_recall_perfect_witness :
    precision ⟨[2], [1, 0], rfl⟩ ⟨[2], [1, 0], rfl⟩ = Except.ok 1 ∧
    recall_fn ⟨[2], [1, 0], rfl⟩ ⟨[2], [1, 0], rfl⟩ = Except.ok 1 :=
  precision_recall_perfect ⟨[2], [1, 0], rfl⟩ ⟨[2], [1, 0], rfl⟩
    (by intro z hz; fin_cases hz <;> norm_num)
    (by intro p hp; fin_cases hp <;> norm_num)
    ⟨(1, 1), by simp, rfl⟩

/-- C10: on same-shaped tensors with binary labels the four confusion
counts partition the elements — their sum is the element count of the
tensor and each element satisfies exactly one of the four element tests —
and an output exactly equal to 0.5 yields a negative prediction. -/
theorem confusion_counts_partition :
    ∀ (outputs labels : Tensor ℚ),
      labels.shape = outputs.shape →
      (∀ z ∈ labels.data, z = 0 ∨ z = 1) →
      (tpCount outputs labels + fpCount outputs labels +
        fnCount outputs labels + tnCount outputs labels =
        outputs.shape.prod ∧
       (∀ p ∈ List.zip outputs.data labels.data,
         (tpPred p).toNat + (fpPred p).toNat +
           (fnPred p).toNat + (tnPred p).toNat = 1) ∧
       predByte (1/2) = 0) := by
  intro o l hsh hb
  refine ⟨?_, ?_, by norm_num [predByte]⟩
  · rw [counts_sum_eq_length o l hb, List.length_zip, o.hlen, l.hlen, hsh,
      min_self]
  · intro p hp
    obtain ⟨x, z⟩ := p
    exact pred_toNat_one x z (hb z (List.of_mem_zip hp).2)

/-- Witness for C10 at `outputs = [1, 0]`, `labels = [0, 1]`. -/
theorem confusion_counts_partition_witness :
    tpCount ⟨[2], [1, 0], rfl⟩ ⟨[2], [0, 1], rfl⟩ +
      fpCount ⟨[2], [1, 0], rfl⟩ ⟨[2], [0, 1], rfl⟩ +
      fnCount ⟨[2], [1, 0], rfl⟩ ⟨[2], [0, 1], rfl⟩ +
      tnCount ⟨[2], [1, 0], rfl⟩ ⟨[2], [0, 1], rfl⟩ = 2 :=
  (confusion_counts_partition ⟨[2], [1, 0], rfl⟩ ⟨[2], [0, 1], rfl⟩
    rfl (by intro z hz; fin_cases hz <;> norm_num)).1

end Net
